import Mathlib

/-!
Verification of the Deep Sea Sim simulation engine (Rust sources under
`game_data/src`).  The definitions below are shallow embeddings of the
corresponding Rust items: `usize` becomes `Nat`, `i64` becomes `Int`
(no arithmetic here ever approaches the 64-bit boundaries that matter),
`Vec`/`HashMap` become lists, `Option`/`Result` become `Option`/`Except`,
and the shared `Arc<RwLock<EntityManager>>` handle becomes explicit state
passing through a `SimState` record.  Randomness (`ThreadRng`) is made an
explicit input wherever the embedded code consumes it.
-/

namespace DeepSea

/-- `Pos` from `game_board.rs`: an unsigned 2-D grid coordinate. -/
structure Pos where
  x : Nat
  y : Nat
deriving DecidableEq, Repr

/-- `usize::abs_diff`. -/
def absDiff (a b : Nat) : Nat := max a b - min a b

/-- `EntityID` from `entity_control.rs`: a wrapped `usize`. -/
structure EntityID where
  id : Nat
deriving DecidableEq, Repr

/-!  ## Board model

`Board` owns a `Vec<Vec<Tile>>`; a tile holds an optional entity plus a
shared registry handle.  We embed the grid as its dimensions together with
the occupancy map `ent : Pos → Option Entity`; the registry handle that
every tile shares becomes the `em` component of `SimState` further below.
The entity type itself is introduced later; the geometric operations
(`dims`, `is_valid_pos`, `range`, the pathfinder) only consult dimensions
and occupancy, so they are stated over this representation.
-/

/-- The board: `xdim` columns, `ydim` rows (`Board::dims` returns `(x, y)`),
and the contents of each tile. -/
structure BoardOf (ε : Type) where
  xdim : Nat
  ydim : Nat
  ent : Pos → Option ε

/-- `Board::is_valid_pos`: bounds check only. -/
def BoardOf.is_valid_pos (b : BoardOf ε) (p : Pos) : Bool :=
  decide (p.y < b.ydim) && decide (p.x < b.xdim)

/-- `Tile::is_occupied` at a position. -/
def BoardOf.is_occupied (b : BoardOf ε) (p : Pos) : Bool :=
  (b.ent p).isSome

/-- Write one tile's contents (the effect of mutating through
`get_tile_mut_from_pos`). -/
def BoardOf.set (b : BoardOf ε) (p : Pos) (v : Option ε) : BoardOf ε :=
  { b with ent := fun q => if q = p then v else b.ent q }

/-- `Board::range(radius, include_self, center)` from `game_board.rs`:
two nested inclusive loops, `i` over rows from `max(center.y - radius, 0)`
to `min(center.y + radius, max_y)` and `j` over columns likewise, skipping
the center unless `include_self`.  (`center.y - radius` is computed in the
source through `f64::max(… , 0.0) as usize`, i.e. saturating subtraction,
which is `Nat` subtraction here.) -/
def BoardOf.range (b : BoardOf ε) (radius : Nat) (include_self : Bool)
    (center : Pos) : List Pos :=
  let max_y := b.ydim - 1
  let max_x := b.xdim - 1
  let lo_y := center.y - radius
  let hi_y := min (center.y + radius) max_y
  let lo_x := center.x - radius
  let hi_x := min (center.x + radius) max_x
  (List.range' lo_y (hi_y + 1 - lo_y)).flatMap fun i =>
    (List.range' lo_x (hi_x + 1 - lo_x)).filterMap fun j =>
      if !include_self && i = center.y && j = center.x then none
      else some { x := j, y := i }

/-!  ## Pathfinder (`ai_controller.rs`) -/

/-- `Pathfinder::get_adjacent(pos, x_max, y_max)`: the clipped unit box
around `pos`, keeping only positions whose `x` **and** `y` both differ
from `pos` (so only diagonal neighbours survive). -/
def get_adjacent (pos : Pos) (x_max y_max : Nat) : List Pos :=
  let x_min := pos.x - 1
  let y_min := pos.y - 1
  let x_hi := min (pos.x + 1) x_max
  let y_hi := min (pos.y + 1) y_max
  (List.range' x_min (x_hi + 1 - x_min)).flatMap fun x =>
    (List.range' y_min (y_hi + 1 - y_min)).filterMap fun y =>
      if x ≠ pos.x && y ≠ pos.y then some { x := x, y := y } else none

/-- The acceptance test inside `Pathfinder::get_next_node`'s loop:
per-axis displacement from `start` within budget and not the start itself. -/
def acceptStep (start : Pos) (max_x max_y : Nat) (p : Pos) : Bool :=
  decide (absDiff p.x start.x ≤ max_x) && decide (absDiff p.y start.y ≤ max_y)
    && decide (p ≠ start)

/-- The loop of `Pathfinder::get_next_node`: walk the path, remembering the
last accepted step in `last_good_pos`, returning it at the first rejected
step (or at the end of the path). -/
def getNextNodeLoop (start : Pos) (max_x max_y : Nat) :
    List Pos → Option Pos → Option Pos
  | [], last_good_pos => last_good_pos
  | p :: rest, last_good_pos =>
    if acceptStep start max_x max_y p then
      getNextNodeLoop start max_x max_y rest (some p)
    else
      last_good_pos

/-- `Pathfinder::get_next_node(start, board, max_x, max_y, method, check)`,
with the result of `method(start, board, check)` passed in as `res` (the
method is only ever called once, up front). -/
def get_next_node (start : Pos) (max_x max_y : Nat) (res : Option (List Pos)) :
    Option Pos :=
  match res with
  | none => none
  | some path => getNextNodeLoop start max_x max_y path none

/-!  ## Entity taxonomy (`entities/…`) -/

/-- `HungerLevel` from `animals.rs`. -/
inductive HungerLevel where
  | Full
  | Hungry
  | Starving
  | Famished
deriving DecidableEq, Repr

/-- `impl From<i64> for HungerLevel`. -/
def HungerLevel.ofLevel (value : Int) : HungerLevel :=
  if 51 ≤ value then .Full
  else if 1 ≤ value then .Hungry
  else if -24 ≤ value then .Starving
  else .Famished

/-- `Sex` from `entities/mod.rs`. -/
inductive Sex where
  | Male
  | Female
  | Neutral
deriving DecidableEq, Repr

/-- `LifeStatus` from `element_traits.rs`. -/
inductive LifeStatus where
  | Alive
  | Dead
deriving DecidableEq, Repr

/-- `IdleAction` from `ai_controller.rs`. -/
structure IdleAction where
  mate_adjacent : Bool
  feed_adjacent : Bool
deriving DecidableEq, Repr

/-- `IdleAction::new`. -/
def IdleAction.new (mate_adjacent feed_adjacent : Bool) : IdleAction :=
  { mate_adjacent := mate_adjacent, feed_adjacent := feed_adjacent }

/-- `MateAction` from `ai_controller.rs`. -/
structure MateAction where
  done : Bool
deriving DecidableEq, Repr

/-- `EatAction` from `ai_controller.rs`. -/
structure EatAction where
  very_hungry : Bool
  should_keep_chasing : Bool
deriving DecidableEq, Repr

/-- `EatAction::new(starving)`. -/
def EatAction.new (starving : Bool) : EatAction :=
  { very_hungry := starving, should_keep_chasing := true }

/-- `EatAction::completed` (an `AIAction` method): returns
`self.should_keep_chasing` verbatim. -/
def EatAction.completed (e : EatAction) : Bool :=
  e.should_keep_chasing

/-- `AIConcreteBehaviors` from `ai_controller.rs`. -/
inductive AIConcreteBehaviors where
  | Idle (i : IdleAction)
  | Eating (e : EatAction)
  | Mating (m : MateAction)
deriving DecidableEq, Repr

/-- `AnimalType` from `animals.rs`: the concrete payload shared by the
fish/crab/shark variants. -/
structure AnimalType where
  name : String
  hp : Int
  hp_max : Int
  max_x_movespeed : Nat
  max_y_movespeed : Nat
  hunger : HungerLevel
  hunger_level : Int
  has_died : Bool
  age : Nat
  max_age : Nat
  sex : Sex
  pregnant : Bool
  pregnancy_level : Nat
  pregnancy_step : Nat
  ticks_since_last_mating : Nat
  mating_cooldown : Nat
  id : Option EntityID
  current_behavior : AIConcreteBehaviors
deriving DecidableEq, Repr

/-- `AnimalType::new`.  The source draws the sex from `ThreadRng` when
`sex_override` is `None`; that random draw is the explicit `rng_sex`
argument here. -/
def AnimalType.new (name : String) (hp : Int) (max_age pregnancy_step
    mating_cooldown : Nat) (id : Option EntityID)
    (max_movespeed_x max_movespeed_y : Nat) (sex_override : Option Sex)
    (rng_sex : Sex) : AnimalType :=
  { name := name
    hp_max := hp
    hp := hp
    hunger := .Full
    hunger_level := 100
    has_died := false
    age := 0
    max_age := max_age
    sex := sex_override.getD rng_sex
    pregnancy_level := 0
    pregnant := false
    pregnancy_step := pregnancy_step
    mating_cooldown := mating_cooldown
    ticks_since_last_mating := 0
    id := id
    max_x_movespeed := max_movespeed_x
    max_y_movespeed := max_movespeed_y
    current_behavior := .Idle (IdleAction.new true true) }

/-- `Animals` from `animals.rs`. -/
inductive Animals where
  | Fish (a : AnimalType)
  | Crab (a : AnimalType)
  | Shark (a : AnimalType)
deriving DecidableEq, Repr

/-- The payload every `Animals` match arm binds as `a`. -/
def Animals.data : Animals → AnimalType
  | .Fish a | .Crab a | .Shark a => a

/-- Mutate the payload in place, keeping the variant. -/
def Animals.mapData (f : AnimalType → AnimalType) : Animals → Animals
  | .Fish a => .Fish (f a)
  | .Crab a => .Crab (f a)
  | .Shark a => .Shark (f a)

/-- `ConcreteAnimals` factory (`NonAbstractTaxonomy::create_new`), with the
random sex draw explicit. -/
inductive ConcreteAnimals where
  | Fish
  | Crab
  | Shark

/-- `Plant` from `plants.rs`. -/
structure Plant where
  name : String
  growth_level : Nat
  max_growth : Nat
  hp : Int
  hp_max : Int
  age : Nat
  max_age : Option Nat
  has_died : Bool
  entity_id : Option EntityID
deriving DecidableEq, Repr

/-- `Plant::new`: note that `hp_max` is initialized to `0` while `hp` takes
the constructor argument — transcribed verbatim from the source. -/
def Plant.new (name : String) (max_growth : Nat) (hp : Int)
    (max_age : Option Nat) (entity_id : Option EntityID) : Plant :=
  { name := name
    growth_level := 0
    max_growth := max_growth
    hp_max := 0
    hp := hp
    age := 0
    max_age := max_age
    has_died := false
    entity_id := entity_id }

/-- `Plants` from `plants.rs`. -/
inductive Plants where
  | Kelp (p : Plant)
  | KelpSeed (p : Plant)
  | KelpLeaf (p : Plant)
deriving DecidableEq, Repr

/-- The payload every `Plants` match arm binds as `p`. -/
def Plants.data : Plants → Plant
  | .Kelp p | .KelpSeed p | .KelpLeaf p => p

/-- Mutate the payload in place, keeping the variant. -/
def Plants.mapData (f : Plant → Plant) : Plants → Plants
  | .Kelp p => .Kelp (f p)
  | .KelpSeed p => .KelpSeed (f p)
  | .KelpLeaf p => .KelpLeaf (f p)

/-- `ConcretePlants::create_new`, returning the inner `Plants` value. -/
def ConcretePlants.create_new_kelp (id : Option EntityID) : Plants :=
  .Kelp (Plant.new "kelp" 65 2 (some 200) id)

/-- `Decoration` from `nonliving.rs`. -/
structure Decoration where
  name : String
deriving DecidableEq, Repr

/-- `NonLiving` from `entities/mod.rs`. -/
inductive NonLiving where
  | Rock (d : Decoration)
  | Shell (d : Decoration)
deriving DecidableEq, Repr

/-- `Living` from `entities/mod.rs`. -/
inductive Living where
  | Plants (p : Plants)
  | Animals (a : Animals)
deriving DecidableEq, Repr

/-- `Entity` from `entities/mod.rs`. -/
inductive Entity where
  | Living (l : Living)
  | NonLiving (n : NonLiving)
deriving DecidableEq, Repr

/-- `ConcreteAnimals::create_new(entity_id)`, sex draw explicit. -/
def ConcreteAnimals.create_new (c : ConcreteAnimals) (entity_id : Option EntityID)
    (rng_sex : Sex) : Entity :=
  let new_animal :=
    match c with
    | .Fish => Animals.Fish (AnimalType.new "fish" 100 300 5 100 entity_id 1 1 none rng_sex)
    | .Crab => Animals.Crab
        (AnimalType.new "crab" 150 1000 3 200 entity_id 3 1 (some .Neutral) rng_sex)
    | .Shark => Animals.Shark (AnimalType.new "shark" 200 125 10 50 entity_id 3 3 none rng_sex)
  .Living (.Animals new_animal)

/-!  ## Life-cycle and eat/mate interaction contracts
(`element_traits.rs`, `interactions.rs`, per-species impls) -/

/-- `ActionResult` from `interactions.rs`. -/
inductive ActionResult where
  | DeleteTarget
deriving DecidableEq, Repr

/-- `EatResult` from `interactions.rs`. -/
inductive EatResult where
  | DealDamage (dam : Nat)
  | Eaten
deriving DecidableEq, Repr

/-- `Animals::die` (`Lives::die`): sets the terminal `has_died` flag. -/
def Animals.die (s : Animals) : Animals :=
  s.mapData fun a => { a with has_died := true }

/-- `Animals::get_life_status`. -/
def Animals.get_life_status (s : Animals) : LifeStatus :=
  if s.data.has_died then .Dead else .Alive

/-- `Lives::is_dead` helper. -/
def Animals.is_dead (s : Animals) : Bool :=
  s.get_life_status = .Dead

/-- `Animals::modify_health`: clamp `hp + delta` into `[0, hp_max]`, then
die if the clamped value is zero. -/
def Animals.modify_health (s : Animals) (delta : Int) : Animals :=
  let s1 := s.mapData fun a => { a with hp := min (max (a.hp + delta) 0) a.hp_max }
  if s1.data.hp = 0 then s1.die else s1

/-- `Animals::should_consider_eating`. -/
def Animals.should_consider_eating (s : Animals) : Bool :=
  s.data.hunger = .Hungry ∨ s.data.hunger = .Starving

/-- `Eaten::get_retaliation_damage` for `Animals`. -/
def Animals.get_retaliation_damage : Animals → Nat
  | .Shark _ => 100
  | .Crab _ => 50
  | .Fish _ => 25

/-- `Eaten::on_eat` for `Animals`: take `attack` damage; if that kills the
target the result is a pure `Eaten`, otherwise retaliation damage plus
`Eaten`.  Returns the mutated target and the result list. -/
def Animals.on_eat (s : Animals) (attack : Nat) :
    Animals × Option (List EatResult) :=
  let s1 := s.modify_health (-(attack : Int))
  if s1.is_dead then
    (s1, some [.Eaten])
  else
    (s1, some [.DealDamage s1.get_retaliation_damage, .Eaten])

/-- `Plants::die`. -/
def Plants.die (s : Plants) : Plants :=
  s.mapData fun p => { p with has_died := true }

/-- `Plants::get_life_status`. -/
def Plants.get_life_status (s : Plants) : LifeStatus :=
  if s.data.has_died then .Dead else .Alive

/-- `Lives::is_dead` helper for plants. -/
def Plants.is_dead (s : Plants) : Bool :=
  s.get_life_status = .Dead

/-- `Plants::modify_health`: `hp = max(0, min(hp_max, hp + delta))`, dying
at zero. -/
def Plants.modify_health (s : Plants) (delta : Int) : Plants :=
  let s1 := s.mapData fun p => { p with hp := max 0 (min p.hp_max (p.hp + delta)) }
  if s1.data.hp = 0 then s1.die else s1

/-- `Eaten::on_eat` for `Plants`: regardless of attack damage, lose one hit
point (unclamped `hp -= 1`), dying when `hp` reaches zero; always a pure
`Eaten` result. -/
def Plants.on_eat (s : Plants) (_attack_damage : Nat) :
    Plants × Option (List EatResult) :=
  let s1 := s.mapData fun p => { p with hp := p.hp - 1 }
  let s2 := if s1.data.hp = 0 then s1.die else s1
  (s2, some [.Eaten])

/-- `EatsCreatures<Animals>::can_eat` for `Animals`. -/
def Animals.can_eat (s target : Animals) : Bool :=
  if target.is_dead then false
  else if s = target then false
  else
    match s, target with
    | .Shark _, .Shark _ => false
    | .Shark _, _ => true
    | .Fish _, .Crab _ => true
    | .Fish a, .Fish _ =>
      match a.hunger with
      | .Famished => true
      | .Starving => decide (a.hp > (target.get_retaliation_damage : Int))
      | .Hungry => false
      | .Full => false
    | _, _ => false

/-- `EatsCreatures<Plants>::can_eat` for `Animals`. -/
def Animals.can_eat_plants (s : Animals) (target : Plants) : Bool :=
  if target.is_dead then false
  else
    match s with
    | .Shark _ => false
    | .Crab a => a.hunger = .Hungry ∨ a.hunger = .Starving
    | .Fish a => a.hunger = .Starving ∨ a.hunger = .Hungry

/-- `EatsCreatures<Animals>::get_attack`. -/
def Animals.get_attack : Animals → Nat
  | .Shark _ => 100
  | .Crab _ => 50
  | .Fish _ => 25

/-- `EatsCreatures<Plants>::get_attack` (always 1). -/
def Animals.get_attack_plants (_ : Animals) : Nat := 1

/-- `EatsCreatures<Animals>::hunger_restored`. -/
def Animals.hunger_restored : Animals → Nat
  | .Crab _ => 50
  | .Fish _ => 100
  | .Shark _ => 500

/-- `EatsCreatures<Plants>::hunger_restored`. -/
def Animals.hunger_restored_plants : Plants → Nat
  | .Kelp _ => 100
  | .KelpLeaf _ => 25
  | .KelpSeed _ => 10

/-- `EatsCreatures<Animals>::restore_hunger`. -/
def Animals.restore_hunger (s : Animals) (target : Animals) : Animals :=
  s.mapData fun a =>
    { a with hunger_level := a.hunger_level + (Animals.hunger_restored target : Int) }

/-- `EatsCreatures<Plants>::restore_hunger`. -/
def Animals.restore_hunger_plants (s : Animals) (target : Plants) : Animals :=
  s.mapData fun a =>
    { a with hunger_level := a.hunger_level + (Animals.hunger_restored_plants target : Int) }

/-- The default `EatsCreatures::eat` body instantiated at animal targets:
invoke the target's `on_eat` with our attack value, apply each returned
effect to the attacker, then signal `DeleteTarget` iff the target is dead.
Returns `(attacker, target, result)`. -/
def Animals.eatAnimal (s target : Animals) :
    Animals × Animals × Option ActionResult :=
  let (target1, res) := target.on_eat (s.get_attack)
  let s1 :=
    match res with
    | none => s
    | some rs =>
      rs.foldl
        (fun acc r =>
          match r with
          | .DealDamage dam => acc.modify_health (-(dam : Int))
          | .Eaten => acc.restore_hunger target1)
        s
  (s1, target1, if target1.is_dead then some .DeleteTarget else none)

/-- The default `EatsCreatures::eat` body instantiated at plant targets. -/
def Animals.eatPlant (s : Animals) (target : Plants) :
    Animals × Plants × Option ActionResult :=
  let (target1, res) := target.on_eat (s.get_attack_plants)
  let s1 :=
    match res with
    | none => s
    | some rs =>
      rs.foldl
        (fun acc r =>
          match r with
          | .DealDamage dam => acc.modify_health (-(dam : Int))
          | .Eaten => acc.restore_hunger_plants target1)
        s
  (s1, target1, if target1.is_dead then some .DeleteTarget else none)

/-- Boards in the simulation carry `Entity` values. -/
abbrev Board := BoardOf Entity

/-- The scan loop of `EatAction::tick`: walk the 1-tile neighbourhood in
`Board::range` order; at each tile first honour the early `return` when
`should_keep_chasing` has been cleared, then eat the tile's occupant if it
is an eatable animal (other than the actor) or an eatable plant, writing
the mutated target back into the tile and clearing the flag. -/
def EatAction.tickLoop (act : EatAction) (actor : Animals) (b : Board) :
    List Pos → EatAction × Animals × Board
  | [] => (act, actor, b)
  | pos :: rest =>
    if !act.should_keep_chasing then (act, actor, b)
    else
      match b.ent pos with
      | some (.Living (.Animals a)) =>
        if actor.can_eat a && a ≠ actor then
          let (actor1, a1, _) := actor.eatAnimal a
          EatAction.tickLoop { act with should_keep_chasing := false } actor1
            (b.set pos (some (.Living (.Animals a1)))) rest
        else
          EatAction.tickLoop act actor b rest
      | some (.Living (.Plants p)) =>
        if actor.can_eat_plants p then
          let (actor1, p1, _) := actor.eatPlant p
          EatAction.tickLoop { act with should_keep_chasing := false } actor1
            (b.set pos (some (.Living (.Plants p1)))) rest
        else
          EatAction.tickLoop act actor b rest
      | _ => EatAction.tickLoop act actor b rest

/-- `EatAction::tick(actor, ctx, board)`: when the actor no longer wants
to eat, clear `should_keep_chasing` and return; otherwise scan
`board.range(1, false, ctx.position)`. -/
def EatAction.tick (act : EatAction) (actor : Animals) (ctx_position : Pos)
    (b : Board) : EatAction × Animals × Board :=
  if !actor.should_consider_eating then
    ({ act with should_keep_chasing := false }, actor, b)
  else
    EatAction.tickLoop act actor b (b.range 1 false ctx_position)

/-!  ## Identity registry (`entity_control.rs`) and board mutation
(`game_board.rs`, `lib.rs`)

`EntityManager`'s `HashMap<EntityID, Pos>` becomes an association list with
map semantics: `insert` replaces any entry with the same key, `remove`
deletes it.  The `Arc<RwLock<..>>` handle that every tile shares becomes
the `em` field of `SimState`, so `Tile::add_entity`/`Tile::remove_entity`
become functions on the combined state. -/

/-- `TrackedEntity::tracked` for `Entity`: living entities are tracked. -/
def Entity.tracked : Entity → Bool
  | .NonLiving _ => false
  | .Living _ => true

/-- `Animals::get_id`. -/
def Animals.get_id (s : Animals) : Option EntityID :=
  s.data.id

/-- `Plants::get_id`. -/
def Plants.get_id (s : Plants) : Option EntityID :=
  s.data.entity_id

/-- `TrackedEntity::get_id` for `Entity`. -/
def Entity.get_id : Entity → Option EntityID
  | .NonLiving _ => none
  | .Living (.Animals a) => a.get_id
  | .Living (.Plants p) => p.get_id

/-- `TrackedEntity::register` for `Entity`: living entities store the ID;
for a non-living entity registration fails (`Err`, merely logged by the
caller) and the value is unchanged. -/
def Entity.register (e : Entity) (id : EntityID) : Entity :=
  match e with
  | .NonLiving n => .NonLiving n
  | .Living (.Animals a) => .Living (.Animals (a.mapData fun d => { d with id := some id }))
  | .Living (.Plants p) =>
    .Living (.Plants (p.mapData fun d => { d with entity_id := some id }))

/-- `HashMap::insert`: replace-or-add. -/
def emInsert (l : List (EntityID × Pos)) (k : EntityID) (v : Pos) :
    List (EntityID × Pos) :=
  (k, v) :: l.filter fun kp => kp.1 ≠ k

/-- `HashMap::remove`. -/
def emErase (l : List (EntityID × Pos)) (k : EntityID) :
    List (EntityID × Pos) :=
  l.filter fun kp => kp.1 ≠ k

/-- `HashMap::get`. -/
def emLookup (l : List (EntityID × Pos)) (k : EntityID) : Option Pos :=
  (l.find? fun kp => kp.1 = k).map (·.2)

/-- `EntityManager` from `entity_control.rs`. -/
structure EntityManager where
  current_largest_entity_id : Nat
  active_entities : List (EntityID × Pos)
deriving Repr

/-- `EntityManager::new` (sans the lock wrapper). -/
def EntityManager.new : EntityManager :=
  { current_largest_entity_id := 0, active_entities := [] }

/-- `EntityManager::update_position(entity, new_position)`:
`Some` inserts/moves, `None` removes. -/
def EntityManager.update_position (em : EntityManager) (entity : EntityID)
    (new_position : Option Pos) : EntityManager :=
  match new_position with
  | some pos => { em with active_entities := emInsert em.active_entities entity pos }
  | none => { em with active_entities := emErase em.active_entities entity }

/-- `EntityManager::register_new_entity(new_position, entity)`: bump the
counter, insert the fresh mapping, call back into the entity to store the
ID.  Returns the issued ID, the updated registry and the updated entity. -/
def EntityManager.register_new_entity (em : EntityManager) (new_position : Pos)
    (entity : Entity) : EntityID × EntityManager × Entity :=
  let new_ent_id : EntityID := ⟨em.current_largest_entity_id + 1⟩
  let em1 : EntityManager :=
    { current_largest_entity_id := new_ent_id.id
      active_entities := emInsert em.active_entities new_ent_id new_position }
  (new_ent_id, em1, entity.register new_ent_id)

/-- `EntityManager::get_active_positions`. -/
def EntityManager.get_active_positions (em : EntityManager) : List Pos :=
  em.active_entities.map (·.2)

/-- The state the tick pipeline mutates: the board plus the shared
registry handle every tile holds. -/
structure SimState where
  board : Board
  em : EntityManager

/-- `Tile::remove_entity` at position `p`: `take` the occupant and, when it
is tracked and carries an ID, delete its registry mapping. -/
def SimState.remove_entity (s : SimState) (p : Pos) : Option Entity × SimState :=
  match s.board.ent p with
  | none => (none, s)
  | some ent =>
    let s1 : SimState := { s with board := s.board.set p none }
    if ent.tracked then
      match ent.get_id with
      | some id => (some ent, { s1 with em := s1.em.update_position id none })
      | none => (some ent, s1)
    else
      (some ent, s1)

/-- `Tile::add_entity(entity)` at position `p`: fail with the rejected
entity if occupied; otherwise, for a tracked entity, reuse its carried ID
or register a fresh one, point the registry at this tile, and store the
entity. -/
def SimState.add_entity (s : SimState) (p : Pos) (entity : Entity) :
    Except Entity Unit × SimState :=
  match s.board.ent p with
  | some _ => (.error entity, s)
  | none =>
    if entity.tracked then
      let (id, em1, entity1) :=
        match entity.get_id with
        | some ent_id => (ent_id, s.em, entity)
        | none => s.em.register_new_entity p entity
      let em2 := em1.update_position id (some p)
      (.ok (), { board := s.board.set p (some entity1), em := em2 })
    else
      (.ok (), { board := s.board.set p (some entity), em := s.em })

/-- The per-entity body of `Sandbox::handle_moves` once a desired move
`new_pos` has been produced: drop the move if out of bounds or the target
tile is occupied, otherwise relocate via tile removal + tile insertion. -/
def SimState.handle_move (s : SimState) (pos new_pos : Pos) : SimState :=
  if !s.board.is_valid_pos new_pos then s
  else if s.board.is_occupied new_pos then s
  else
    let (our_entity, s1) := s.remove_entity pos
    match our_entity with
    | some e => (s1.add_entity new_pos e).2
    | none => s1

/-- `Sandbox::sanity_check` (debug builds), returning `true` when it
panics.  The duplicate test is transcribed verbatim: the source wraps the
whole position vector in a one-element slice (`&[&important_entities]`)
before running the window comparison `(1..slice.len()).any(..)`. -/
def sanity_check (s : SimState) : Bool :=
  let important_entities := s.em.get_active_positions
  let unoccupied_panic := important_entities.any fun pos => !s.board.is_occupied pos
  let slice := [important_entities]
  let duplicates_exist := (List.range' 1 (slice.length - 1)).any fun i =>
    (slice.drop i).any fun v => decide (some v = slice[i - 1]?)
  unoccupied_panic || duplicates_exist

/-!  ## BFS (`Pathfinder::find_path_bfs`) -/

/-- `HashMap::get` on the BFS `visited` map (`Pos → Option Pos` parent
entries). -/
def bfsFind (visited : List (Pos × Option Pos)) (p : Pos) : Option (Option Pos) :=
  (visited.find? fun kv => kv.1 = p).map (·.2)

/-- Neighbour expansion of one BFS step: for each `get_adjacent` neighbour
not yet visited, record its parent and push it on the horizon (the
`or_insert(Some(cur_pos))` entry is always `Some`, so every fresh
neighbour is pushed). -/
def bfsExpand (cur_pos : Pos) (x_max y_max : Nat)
    (st : List (Pos × Option Pos) × List Pos) :
    List (Pos × Option Pos) × List Pos :=
  (get_adjacent cur_pos x_max y_max).foldl
    (fun acc neighbor =>
      if (bfsFind acc.1 neighbor).isSome then acc
      else ((neighbor, some cur_pos) :: acc.1, acc.2 ++ [neighbor]))
    st

/-- The `while !horizon.is_empty()` loop of `find_path_bfs`: pop the front
of the horizon; stop at the first goal (other than the start); skip
occupied non-start tiles; otherwise expand neighbours.  The result is the
goal node and the visited map, or `none` when the search gave up.  `fuel`
strictly dominates the number of loop iterations (each iteration pops one
element, and at most one entry per board position is ever pushed), so the
wrapper below always supplies enough. -/
def bfsLoop (b : Board) (check : Pos → Board → Bool) (start : Pos)
    (x_max y_max : Nat) :
    Nat → List (Pos × Option Pos) → List Pos →
      Option (Pos × List (Pos × Option Pos))
  | 0, _, _ => none
  | _ + 1, _, [] => none
  | fuel + 1, visited, cur_pos :: horizon =>
    if check cur_pos b && start ≠ cur_pos then some (cur_pos, visited)
    else if b.is_occupied cur_pos && cur_pos ≠ start then
      bfsLoop b check start x_max y_max fuel visited horizon
    else
      let st := bfsExpand cur_pos x_max y_max (visited, horizon)
      bfsLoop b check start x_max y_max fuel st.1 st.2

/-- The backtracking loop of `find_path_bfs`: follow parent links from the
goal, pushing each **parent** (the source pushes `next_pos`, i.e. the
parent, not the current node) until the start's `None` entry; consing here
yields the already-reversed order the source produces via
`path.reverse()`. -/
def bfsBacktrack (visited : List (Pos × Option Pos)) :
    Nat → Pos → List Pos → List Pos
  | 0, _, path => path
  | fuel + 1, parent, path =>
    match bfsFind visited parent with
    | some (some next_pos) => bfsBacktrack visited fuel next_pos (next_pos :: path)
    | _ => path

/-- `Pathfinder::find_path_bfs(start, board, check)`. -/
def find_path_bfs (start : Pos) (b : Board) (check : Pos → Board → Bool) :
    Option (List Pos) :=
  let x_max := b.xdim - 1
  let y_max := b.ydim - 1
  match bfsLoop b check start x_max y_max (b.xdim * b.ydim + 2)
      [(start, none)] [start] with
  | none => none
  | some (original_end_node, visited) =>
    some (bfsBacktrack visited (visited.length + 1) original_end_node [])

/-!  ## Concrete fixtures used to evaluate the embedded code -/

/-- A fish exactly as `ConcreteAnimals::Fish.create_new(None)` builds it
(sex draw fixed to `Male`). -/
def fishDefault : Animals :=
  .Fish (AnimalType.new "fish" 100 300 5 100 none 1 1 none .Male)

/-- A crab exactly as `ConcreteAnimals::Crab.create_new(None)` builds it. -/
def crabDefault : Animals :=
  .Crab (AnimalType.new "crab" 150 1000 3 200 none 3 1 (some .Neutral) .Male)

/-- The default crab with its hunger forced into the `Hungry` bucket (the
same kind of setup the source's tests perform on the raw fields). -/
def crabHungry : Animals :=
  crabDefault.mapData fun a => { a with hunger := .Hungry, hunger_level := 10 }

/-- `ConcretePlants::Kelp.create_new(None)`. -/
def kelpDefault : Plants := ConcretePlants.create_new_kelp none

/-- An empty 2×2 board. -/
def emptyBoard2 : Board := { xdim := 2, ydim := 2, ent := fun _ => none }

/-- A 2×2 board holding only the default kelp at `(0, 0)`. -/
def kelpBoard2 : Board :=
  { xdim := 2, ydim := 2
    ent := fun p =>
      if p = { x := 0, y := 0 } then some (.Living (.Plants kelpDefault)) else none }

/-- A goal predicate for the pathfinder: the tile at `(1, 1)`. -/
def goalAt11 : Pos → Board → Bool := fun p _ => decide (p = { x := 1, y := 1 })

/-- A registry state in which two distinct IDs map to the same (occupied)
position — the situation the duplicate gate of `sanity_check` is meant to
catch. -/
def dupRegistryState : SimState :=
  { board :=
      { xdim := 2, ydim := 2
        ent := fun p =>
          if p = { x := 0, y := 0 } then
            some (.Living (.Plants (ConcretePlants.create_new_kelp (some { id := 1 }))))
          else none }
    em :=
      { current_largest_entity_id := 2
        active_entities :=
          [({ id := 1 }, { x := 0, y := 0 }), ({ id := 2 }, { x := 0, y := 0 })] } }

/-- The empty 1×1 simulation state. -/
def emptySimState : SimState :=
  { board := { xdim := 1, ydim := 1, ent := fun _ => none }
    em := EntityManager.new }

/-!  ## Registry-consistency invariant (claim C1)

The four tick phases mutate the board/registry pair exclusively through
the operations below: `handle_moves` relocates via
`Tile::remove_entity` + `Tile::add_entity` after a bounds/vacancy check
(`SimState.handle_move`); `handle_processing` and `handle_late_processing`
detach an entity (`SimState.remove_entity`), possibly mutate it without
touching its stored ID, and re-attach it or a replacement
(`SimState.add_entity`); reproduction inserts fresh, ID-less entities into
empty tiles (`SimState.add_entity`); events and opportunistic eating/mating
mutate an occupant in place through `get_entity_mut` without touching its
ID.  Every entity handed to `Tile::add_entity` either carries no ID yet, or
carries an ID that the registry no longer lists (its mapping was deleted
when it was detached) and that the registry itself issued earlier (so it
is bounded by the ID counter); `SandboxStep.attach` records exactly that
discipline. -/

/-- One board/registry mutation of the tick pipeline. -/
inductive SandboxStep : SimState → SimState → Prop
  | move (s : SimState) (pos new_pos : Pos) :
      SandboxStep s (s.handle_move pos new_pos)
  | detach (s : SimState) (p : Pos) :
      SandboxStep s (s.remove_entity p).2
  | attach (s : SimState) (p : Pos) (e : Entity)
      (hfresh : ∀ i, e.get_id = some i →
        emLookup s.em.active_entities i = none ∧
          i.id ≤ s.em.current_largest_entity_id) :
      SandboxStep s (s.add_entity p e).2
  | mutate (s : SimState) (p : Pos) (e e1 : Entity)
      (hocc : s.board.ent p = some e) (hid : e1.get_id = e.get_id) :
      SandboxStep s { s with board := s.board.set p (some e1) }

/-- The invariant: every active-registry entry points at a tile occupied by
an entity storing exactly that ID; registry keys are unique and bounded by
the ID counter; and every ID stored by an entity on the board was issued by
the counter. -/
structure Consistent (s : SimState) : Prop where
  reg : ∀ kp ∈ s.em.active_entities,
    ∃ e, s.board.ent kp.2 = some e ∧ e.get_id = some kp.1
  keyBound : ∀ kp ∈ s.em.active_entities,
    kp.1.id ≤ s.em.current_largest_entity_id
  keyNodup : (s.em.active_entities.map Prod.fst).Nodup
  boardBound : ∀ p e, s.board.ent p = some e →
    ∀ i, e.get_id = some i → i.id ≤ s.em.current_largest_entity_id

/-!  ## Theorems -/

theorem absDiff_le_iff (a b r : Nat) : absDiff a b ≤ r ↔ a ≤ b + r ∧ b ≤ a + r := by
  unfold absDiff
  omega

/-- Claim C2 (code bug): `Plant::new` initializes `hp_max` to `0` while
`hp` takes the positive constructor argument, so `ConcretePlants::Kelp`
(hp = 2) violates `0 ≤ hp ≤ hp_max` immediately after construction. -/
theorem C2_plant_construction_violates_health_bounds :
    (Plant.new "kelp" 65 2 (some 200) none).hp = 2 ∧
    (Plant.new "kelp" 65 2 (some 200) none).hp_max = 0 ∧
    ¬((Plant.new "kelp" 65 2 (some 200) none).hp ≤
        (Plant.new "kelp" 65 2 (some 200) none).hp_max) :=
  ⟨rfl, rfl, by decide⟩

/-- Claim C3 (code bug): eating an animal does not always kill it.  A
fresh fish (attack 25) is allowed to eat a fresh crab (hp 150); after
`eat` the crab is alive (hp 125) and the call returns `None` rather than
`DeleteTarget`, contrary to the claim that every eaten animal dies. -/
theorem C3_eaten_animal_survives :
    fishDefault.can_eat crabDefault = true ∧
    (fishDefault.eatAnimal crabDefault).2.1.is_dead = false ∧
    (fishDefault.eatAnimal crabDefault).2.1.data.hp = 125 ∧
    (fishDefault.eatAnimal crabDefault).2.2 = none := by
  refine ⟨rfl, rfl, rfl, rfl⟩

/-- Claim C4 (code bug): on an empty 2×2 board with the goal predicate
selecting `(1, 1)`, `find_path_bfs` from `(0, 0)` returns `[(0, 0)]` — a
path that contains the start and omits the goal, contradicting the
"exclusive of start, inclusive of goal" contract (the backtracking loop
pushes each node's parent instead of the node). -/
theorem C4_bfs_path_contains_start_omits_goal :
    find_path_bfs { x := 0, y := 0 } emptyBoard2 goalAt11
      = some [{ x := 0, y := 0 }] ∧
    goalAt11 { x := 1, y := 1 } emptyBoard2 = true ∧
    ({ x := 0, y := 0 } : Pos) ∈ [({ x := 0, y := 0 } : Pos)] ∧
    ({ x := 1, y := 1 } : Pos) ∉ [({ x := 0, y := 0 } : Pos)] := by
  refine ⟨rfl, rfl, by decide, by decide⟩

/-- Claim C6 (code bug): `EatAction::completed` returns
`self.should_keep_chasing` un-negated, so a freshly created action (which
has eaten nothing) reports `completed() = true`, and after a tick in which
the actor does eat an adjacent plant (the hunger restoration shows the
meal happened) it reports `completed() = false` — both the opposite of the
claim. -/
theorem C6_eat_action_completed_inverted :
    (EatAction.new false).completed = true ∧
    ((EatAction.new false).tick crabHungry { x := 1, y := 1 } kelpBoard2).1.completed
      = false ∧
    ((EatAction.new false).tick crabHungry { x := 1, y := 1 }
        kelpBoard2).2.1.data.hunger_level = 110 := by
  refine ⟨rfl, rfl, rfl⟩

/-- Claim C9 (code bug): the duplicate-position gate never fires.  In a
state whose active registry holds two IDs mapped to the same occupied
position, `sanity_check` returns without panicking, because the source
wraps the whole position vector into a single-element slice before running
the duplicate scan. -/
theorem C9_sanity_check_misses_duplicates :
    ¬ dupRegistryState.em.get_active_positions.Nodup ∧
    sanity_check dupRegistryState = false := by
  refine ⟨by decide, rfl⟩

/-- Claim C10 (counterexample): `get_adjacent` does not return every
in-bounds position whose two coordinates differ from `pos`'s — `(3, 3)`
differs from `(0, 0)` in both coordinates and is within bounds `5`, yet is
not returned (only the clipped unit box around `pos` is enumerated). -/
theorem C10_get_adjacent_not_all_coordinate_diffs :
    ({ x := 3, y := 3 } : Pos).x ≤ 5 ∧ ({ x := 3, y := 3 } : Pos).y ≤ 5 ∧
    ({ x := 3, y := 3 } : Pos).x ≠ ({ x := 0, y := 0 } : Pos).x ∧
    ({ x := 3, y := 3 } : Pos).y ≠ ({ x := 0, y := 0 } : Pos).y ∧
    ({ x := 3, y := 3 } : Pos) ∉ get_adjacent { x := 0, y := 0 } 5 5 := by
  decide

/-- Claim C10 (amended): `get_adjacent(pos, x_max, y_max)` returns exactly
the in-bounds positions at Chebyshev distance at most 1 from `pos` whose
`x` and `y` coordinates both differ from `pos`'s — in particular it never
returns a position sharing `pos`'s row or column, so BFS neighbour
expansion is diagonal-only. -/
theorem C10_get_adjacent_diagonal_only (pos : Pos) (x_max y_max : Nat) (p : Pos) :
    p ∈ get_adjacent pos x_max y_max ↔
      p.x ≤ x_max ∧ p.y ≤ y_max ∧ absDiff p.x pos.x ≤ 1 ∧ absDiff p.y pos.y ≤ 1 ∧
        p.x ≠ pos.x ∧ p.y ≠ pos.y := by
  rcases p with ⟨px, py⟩
  rcases pos with ⟨cx, cy⟩
  simp only [get_adjacent, List.mem_flatMap, List.mem_filterMap, List.mem_range'_1,
    absDiff_le_iff]
  constructor
  · rintro ⟨x, hx, y, hy, hxy⟩
    by_cases hcond : (decide ¬x = cx && decide ¬y = cy) = true
    · rw [if_pos hcond] at hxy
      simp only [Option.some.injEq, Pos.mk.injEq] at hxy
      obtain ⟨rfl, rfl⟩ := hxy
      simp only [Bool.and_eq_true, decide_eq_true_eq] at hcond
      refine ⟨?_, ?_, ?_, ?_, hcond.1, hcond.2⟩ <;> omega
    · rw [if_neg hcond] at hxy
      exact absurd hxy (by simp)
  · rintro ⟨h1, h2, h3, h4, h5, h6⟩
    refine ⟨px, by omega, py, by omega, ?_⟩
    rw [if_pos (by simp [h5, h6])]

theorem getNextNodeLoop_eq (start : Pos) (mx my : Nat) (l : List Pos)
    (acc : Option Pos) :
    getNextNodeLoop start mx my l acc
      = ((l.takeWhile (acceptStep start mx my)).getLast?).or acc := by
  induction l generalizing acc with
  | nil => simp [getNextNodeLoop]
  | cons p rest ih =>
    by_cases hp : acceptStep start mx my p = true
    · rw [show getNextNodeLoop start mx my (p :: rest) acc
          = getNextNodeLoop start mx my rest (some p) by simp [getNextNodeLoop, hp]]
      rw [ih, List.takeWhile_cons, if_pos hp]
      cases hq : rest.takeWhile (acceptStep start mx my) with
      | nil => simp
      | cons q ts =>
        rw [List.getLast?_cons_cons]
        cases hlast : (q :: ts).getLast? with
        | none => simp at hlast
        | some z => simp
    · rw [show getNextNodeLoop start mx my (p :: rest) acc = acc by
          simp [getNextNodeLoop, hp]]
      rw [List.takeWhile_cons, if_neg hp]
      simp

/-- Claim C5 (confirmed): `get_next_node` walks the supplied path in order,
accepting each step only while its per-axis displacement from `start` is
within `(max_x, max_y)` and it differs from `start`, stops at the first
violating step, and returns the last accepted step (`takeWhile`/`getLast?`
characterization); consequently any returned position respects the budget
and differs from `start`, and a violating first step yields `None`. -/
theorem C5_get_next_node_clips (start : Pos) (max_x max_y : Nat) (path : List Pos) :
    get_next_node start max_x max_y (some path)
        = (path.takeWhile (acceptStep start max_x max_y)).getLast? ∧
    (∀ q, get_next_node start max_x max_y (some path) = some q →
      absDiff q.x start.x ≤ max_x ∧ absDiff q.y start.y ≤ max_y ∧ q ≠ start) ∧
    (∀ p rest, path = p :: rest → acceptStep start max_x max_y p = false →
      get_next_node start max_x max_y (some path) = none) := by
  have hmain : get_next_node start max_x max_y (some path)
      = (path.takeWhile (acceptStep start max_x max_y)).getLast? := by
    show getNextNodeLoop start max_x max_y path none = _
    rw [getNextNodeLoop_eq]
    cases (path.takeWhile (acceptStep start max_x max_y)).getLast? <;> rfl
  refine ⟨hmain, ?_, ?_⟩
  · intro q hq
    rw [hmain] at hq
    have hmem : q ∈ path.takeWhile (acceptStep start max_x max_y) := by
      obtain ⟨hne, rfl⟩ := List.mem_getLast?_eq_getLast (Option.mem_def.mpr hq)
      exact List.getLast_mem hne
    have hacc := List.mem_takeWhile_imp hmem
    simp only [acceptStep, Bool.and_eq_true, decide_eq_true_eq] at hacc
    exact ⟨hacc.1.1, hacc.1.2, hacc.2⟩
  · rintro p rest rfl hviol
    rw [hmain, List.takeWhile_cons, if_neg (by simp [hviol])]
    rfl

/-- Witness for C5 at a concrete input: a first step that exceeds the
budget makes the clipped move `None`. -/
theorem C5_get_next_node_clips_witness :
    get_next_node { x := 0, y := 0 } 1 1 (some [{ x := 2, y := 0 }]) = none :=
  (C5_get_next_node_clips { x := 0, y := 0 } 1 1 [{ x := 2, y := 0 }]).2.2
    { x := 2, y := 0 } [] rfl (by decide)

/-- Claim C8 (confirmed): for a board with positive dimensions and an
in-bounds center, `Board::range(radius, include_self, center)` contains
exactly the in-bounds positions within Chebyshev distance `radius` of the
center, with the center itself excluded when `include_self` is false. -/
theorem C8_board_range_chebyshev (b : Board) (radius : Nat) (include_self : Bool)
    (center : Pos) (hx : 0 < b.xdim) (hy : 0 < b.ydim)
    (hcx : center.x < b.xdim) (hcy : center.y < b.ydim) (p : Pos) :
    p ∈ b.range radius include_self center ↔
      p.x < b.xdim ∧ p.y < b.ydim ∧ absDiff p.x center.x ≤ radius ∧
        absDiff p.y center.y ≤ radius ∧ (include_self = true ∨ p ≠ center) := by
  rcases p with ⟨px, py⟩
  rcases center with ⟨cx, cy⟩
  simp only [BoardOf.range, List.mem_flatMap, List.mem_filterMap, List.mem_range'_1,
    absDiff_le_iff]
  constructor
  · rintro ⟨i, hi, j, hj, hij⟩
    by_cases hcond : (!include_self && decide (i = cy) && decide (j = cx)) = true
    · rw [if_pos hcond] at hij
      exact absurd hij (by simp)
    · rw [if_neg hcond] at hij
      simp only [Option.some.injEq, Pos.mk.injEq] at hij
      obtain ⟨rfl, rfl⟩ := hij
      simp only [Bool.and_eq_true, Bool.not_eq_true', decide_eq_true_eq] at hcond
      refine ⟨by omega, by omega, by omega, by omega, ?_⟩
      by_cases hself : include_self = true
      · exact Or.inl hself
      · refine Or.inr fun hEq => ?_
        rw [Pos.mk.injEq] at hEq
        have hfalse : include_self = false := by
          revert hself; cases include_self <;> simp
        exact hcond ⟨⟨hfalse, hEq.2⟩, hEq.1⟩
  · rintro ⟨h1, h2, h3, h4, h5⟩
    refine ⟨py, by omega, px, by omega, ?_⟩
    have hfalse : (!include_self && decide (py = cy) && decide (px = cx)) = false := by
      rcases h5 with h5 | h5
      · simp [h5]
      · rw [ne_eq, Pos.mk.injEq] at h5
        by_cases hxx : px = cx
        · have hyy : ¬py = cy := fun hyy => h5 ⟨hxx, hyy⟩
          simp [hyy]
        · simp [hxx]
    rw [if_neg (by simp [hfalse])]

/-- Witness for C8 at a concrete input: on a 6×6 board, `(2, 2)` lies in
the radius-1 neighbourhood of `(3, 3)` with the center excluded. -/
theorem C8_board_range_chebyshev_witness :
    ({ x := 2, y := 2 } : Pos) ∈
      (({ xdim := 6, ydim := 6, ent := fun _ => none } : Board)).range 1 false
        { x := 3, y := 3 } :=
  (C8_board_range_chebyshev { xdim := 6, ydim := 6, ent := fun _ => none } 1 false
      { x := 3, y := 3 } (by decide) (by decide) (by decide) (by decide)
      { x := 2, y := 2 }).mpr (by refine ⟨by decide, by decide, by decide, by decide, Or.inr (by decide)⟩)

theorem BoardOf.ent_set_self (b : BoardOf ε) (p : Pos) (v : Option ε) :
    (b.set p v).ent p = v := by
  simp [BoardOf.set]

theorem BoardOf.ent_set_ne (b : BoardOf ε) (p q : Pos) (v : Option ε) (hq : q ≠ p) :
    (b.set p v).ent q = b.ent q := by
  simp [BoardOf.set, hq]

theorem Animals.data_mapData (f : AnimalType → AnimalType) (s : Animals) :
    (s.mapData f).data = f s.data := by
  cases s <;> rfl

theorem Plants.plant_data_mapData (f : Plant → Plant) (s : Plants) :
    (s.mapData f).data = f s.data := by
  cases s <;> rfl

theorem Entity.tracked_of_get_id {e : Entity} {i : EntityID} (h : e.get_id = some i) :
    e.tracked = true := by
  cases e with
  | NonLiving n => simp [Entity.get_id] at h
  | Living l => rfl

theorem Entity.get_id_of_not_tracked {e : Entity} (h : e.tracked = false) :
    e.get_id = none := by
  cases e with
  | NonLiving n => rfl
  | Living l => simp [Entity.tracked] at h

theorem Entity.get_id_register {e : Entity} (h : e.tracked = true) (i : EntityID) :
    (e.register i).get_id = some i := by
  cases e with
  | NonLiving n => simp [Entity.tracked] at h
  | Living l =>
    cases l with
    | Animals a => simp [Entity.register, Entity.get_id, Animals.get_id, Animals.data_mapData]
    | Plants p => simp [Entity.register, Entity.get_id, Plants.get_id, Plants.plant_data_mapData]

theorem mem_emErase {l : List (EntityID × Pos)} {k : EntityID} {kp : EntityID × Pos} :
    kp ∈ emErase l k ↔ kp ∈ l ∧ kp.1 ≠ k := by
  simp [emErase, List.mem_filter]

theorem mem_emInsert {l : List (EntityID × Pos)} {k : EntityID} {v : Pos}
    {kp : EntityID × Pos} :
    kp ∈ emInsert l k v ↔ kp = (k, v) ∨ (kp ∈ l ∧ kp.1 ≠ k) := by
  simp [emInsert, List.mem_filter]

theorem emLookup_eq_none_iff {l : List (EntityID × Pos)} {k : EntityID} :
    emLookup l k = none ↔ ∀ kp ∈ l, kp.1 ≠ k := by
  simp [emLookup, List.find?_eq_none]

theorem emLookup_emErase_self (l : List (EntityID × Pos)) (k : EntityID) :
    emLookup (emErase l k) k = none := by
  rw [emLookup_eq_none_iff]
  intro kp hkp
  exact (mem_emErase.mp hkp).2

theorem keyNodup_emErase {l : List (EntityID × Pos)} (k : EntityID)
    (h : (l.map Prod.fst).Nodup) : ((emErase l k).map Prod.fst).Nodup :=
  h.sublist ((List.filter_sublist l).map Prod.fst)

theorem keyNodup_emInsert {l : List (EntityID × Pos)} (k : EntityID) (v : Pos)
    (h : (l.map Prod.fst).Nodup) : ((emInsert l k v).map Prod.fst).Nodup := by
  rw [emInsert, List.map_cons, List.nodup_cons]
  constructor
  · intro hmem
    obtain ⟨kp, hkp, hfst⟩ := List.mem_map.mp hmem
    exact (mem_emErase.mp hkp).2 hfst
  · exact keyNodup_emErase k h

theorem emInsert_idem (l : List (EntityID × Pos)) (k : EntityID) (v : Pos) :
    emInsert (emInsert l k v) k v = emInsert l k v := by
  simp only [emInsert, List.filter_cons]
  rw [List.filter_filter]
  simp

theorem remove_entity_empty (s : SimState) (p : Pos) (h : s.board.ent p = none) :
    s.remove_entity p = (none, s) := by
  simp [SimState.remove_entity, h]

theorem remove_entity_some_id (s : SimState) (p : Pos) (ent : Entity) (i : EntityID)
    (h : s.board.ent p = some ent) (hid : ent.get_id = some i) :
    s.remove_entity p = (some ent,
      { board := s.board.set p none
        em := { s.em with active_entities := emErase s.em.active_entities i } }) := by
  have htr := Entity.tracked_of_get_id hid
  simp [SimState.remove_entity, h, htr, hid, EntityManager.update_position]

theorem remove_entity_some_noid (s : SimState) (p : Pos) (ent : Entity)
    (h : s.board.ent p = some ent) (hid : ent.get_id = none) :
    s.remove_entity p = (some ent, { s with board := s.board.set p none }) := by
  cases htr : ent.tracked <;> simp [SimState.remove_entity, h, htr, hid]

theorem add_entity_occupied (s : SimState) (p : Pos) (entity e0 : Entity)
    (h : s.board.ent p = some e0) :
    s.add_entity p entity = (.error entity, s) := by
  simp [SimState.add_entity, h]

theorem add_entity_untracked (s : SimState) (p : Pos) (entity : Entity)
    (h : s.board.ent p = none) (htr : entity.tracked = false) :
    s.add_entity p entity
      = (.ok (), { s with board := s.board.set p (some entity) }) := by
  simp [SimState.add_entity, h, htr]

theorem add_entity_with_id (s : SimState) (p : Pos) (entity : Entity) (i : EntityID)
    (h : s.board.ent p = none) (htr : entity.tracked = true)
    (hid : entity.get_id = some i) :
    s.add_entity p entity = (.ok (),
      { board := s.board.set p (some entity)
        em := { s.em with active_entities := emInsert s.em.active_entities i p } }) := by
  simp [SimState.add_entity, h, htr, hid, EntityManager.update_position]

theorem add_entity_fresh (s : SimState) (p : Pos) (entity : Entity)
    (h : s.board.ent p = none) (htr : entity.tracked = true)
    (hid : entity.get_id = none) :
    s.add_entity p entity = (.ok (),
      { board := s.board.set p
          (some (entity.register { id := s.em.current_largest_entity_id + 1 }))
        em := { current_largest_entity_id := s.em.current_largest_entity_id + 1
                active_entities := emInsert s.em.active_entities
                  { id := s.em.current_largest_entity_id + 1 } p } }) := by
  simp only [SimState.add_entity, h, htr, hid, EntityManager.register_new_entity,
    EntityManager.update_position, emInsert_idem]
  simp

/-- Claim C7 (confirmed): `Tile::add_entity` never silently overwrites.
If the tile is occupied, it returns `Err` carrying exactly the rejected
entity with the tile and registry unchanged; if the tile is empty, it
returns `Ok` and the tile afterwards holds the given entity (verbatim
when it already carried an ID or is untracked, otherwise with the freshly
issued ID stored into it). -/
theorem C7_add_entity_never_overwrites (s : SimState) (p : Pos) (entity : Entity) :
    (∀ e0, s.board.ent p = some e0 → s.add_entity p entity = (.error entity, s)) ∧
    (s.board.ent p = none →
      (s.add_entity p entity).1 = .ok () ∧
      ((s.add_entity p entity).2.board.ent p = some entity ∨
        (s.add_entity p entity).2.board.ent p
          = some (entity.register { id := s.em.current_largest_entity_id + 1 }))) := by
  constructor
  · intro e0 h
    exact add_entity_occupied s p entity e0 h
  · intro h
    cases htr : entity.tracked with
    | false =>
      rw [add_entity_untracked s p entity h htr]
      exact ⟨rfl, Or.inl (BoardOf.ent_set_self _ _ _)⟩
    | true =>
      cases hid : entity.get_id with
      | some i =>
        rw [add_entity_with_id s p entity i h htr hid]
        exact ⟨rfl, Or.inl (BoardOf.ent_set_self _ _ _)⟩
      | none =>
        rw [add_entity_fresh s p entity h htr hid]
        exact ⟨rfl, Or.inr (BoardOf.ent_set_self _ _ _)⟩

/-- Witness for C7 at concrete inputs: inserting onto the occupied tile of
`dupRegistryState` fails with the rejected entity and no state change;
inserting onto the empty 1×1 board succeeds. -/
theorem C7_add_entity_never_overwrites_witness :
    dupRegistryState.add_entity { x := 0, y := 0 }
        (.NonLiving (.Rock { name := "rock" }))
      = (.error (.NonLiving (.Rock { name := "rock" })), dupRegistryState) ∧
    (emptySimState.add_entity { x := 0, y := 0 }
        (.NonLiving (.Rock { name := "rock" }))).1 = .ok () :=
  ⟨(C7_add_entity_never_overwrites dupRegistryState { x := 0, y := 0 }
      (.NonLiving (.Rock { name := "rock" }))).1 _ rfl,
   ((C7_add_entity_never_overwrites emptySimState { x := 0, y := 0 }
      (.NonLiving (.Rock { name := "rock" }))).2 rfl).1⟩

theorem Consistent.remove (s : SimState) (hc : Consistent s) (p : Pos) :
    Consistent (s.remove_entity p).2 := by
  cases h : s.board.ent p with
  | none =>
    rw [remove_entity_empty s p h]
    exact hc
  | some ent =>
    cases hid : ent.get_id with
    | some i =>
      rw [remove_entity_some_id s p ent i h hid]
      refine ⟨?_, ?_, ?_, ?_⟩
      · intro kp hkp
        obtain ⟨hkp1, hkpne⟩ := mem_emErase.mp hkp
        obtain ⟨e, he, heid⟩ := hc.reg kp hkp1
        have hne : kp.2 ≠ p := by
          intro hEq
          rw [hEq, h] at he
          cases he
          rw [hid] at heid
          cases heid
          exact hkpne rfl
        exact ⟨e, by rw [BoardOf.ent_set_ne _ _ _ _ hne]; exact he, heid⟩
      · intro kp hkp
        exact hc.keyBound kp (mem_emErase.mp hkp).1
      · exact keyNodup_emErase i hc.keyNodup
      · intro q e hq i' hi'
        by_cases hqp : q = p
        · rw [hqp, BoardOf.ent_set_self] at hq
          cases hq
        · rw [BoardOf.ent_set_ne _ _ _ _ hqp] at hq
          exact hc.boardBound q e hq i' hi'
    | none =>
      rw [remove_entity_some_noid s p ent h hid]
      refine ⟨?_, hc.keyBound, hc.keyNodup, ?_⟩
      · intro kp hkp
        obtain ⟨e, he, heid⟩ := hc.reg kp hkp
        have hne : kp.2 ≠ p := by
          intro hEq
          rw [hEq, h] at he
          cases he
          rw [hid] at heid
          cases heid
        exact ⟨e, by rw [BoardOf.ent_set_ne _ _ _ _ hne]; exact he, heid⟩
      · intro q e hq i' hi'
        by_cases hqp : q = p
        · rw [hqp, BoardOf.ent_set_self] at hq
          cases hq
        · rw [BoardOf.ent_set_ne _ _ _ _ hqp] at hq
          exact hc.boardBound q e hq i' hi'

theorem Consistent.add (s : SimState) (hc : Consistent s) (p : Pos) (e : Entity)
    (hfresh : ∀ i, e.get_id = some i →
      emLookup s.em.active_entities i = none ∧
        i.id ≤ s.em.current_largest_entity_id) :
    Consistent (s.add_entity p e).2 := by
  cases h : s.board.ent p with
  | some e0 =>
    rw [add_entity_occupied s p e e0 h]
    exact hc
  | none =>
    have hregOld : ∀ kp ∈ s.em.active_entities, kp.2 ≠ p := by
      intro kp hkp hEq
      obtain ⟨e2, he2, _⟩ := hc.reg kp hkp
      rw [hEq, h] at he2
      cases he2
    cases htr : e.tracked with
    | false =>
      rw [add_entity_untracked s p e h htr]
      refine ⟨?_, hc.keyBound, hc.keyNodup, ?_⟩
      · intro kp hkp
        obtain ⟨e2, he2, heid2⟩ := hc.reg kp hkp
        exact ⟨e2, by rw [BoardOf.ent_set_ne _ _ _ _ (hregOld kp hkp)]; exact he2, heid2⟩
      · intro q e1 hq i' hi'
        by_cases hqp : q = p
        · rw [hqp, BoardOf.ent_set_self] at hq
          cases hq
          rw [Entity.get_id_of_not_tracked htr] at hi'
          cases hi'
        · rw [BoardOf.ent_set_ne _ _ _ _ hqp] at hq
          exact hc.boardBound q e1 hq i' hi'
    | true =>
      cases hid : e.get_id with
      | some i =>
        obtain ⟨hlook, hbound⟩ := hfresh i hid
        rw [add_entity_with_id s p e i h htr hid]
        refine ⟨?_, ?_, keyNodup_emInsert i p hc.keyNodup, ?_⟩
        · intro kp hkp
          rcases mem_emInsert.mp hkp with hEq | ⟨hmem, _⟩
          · subst hEq
            exact ⟨e, BoardOf.ent_set_self _ _ _, hid⟩
          · obtain ⟨e2, he2, heid2⟩ := hc.reg kp hmem
            exact ⟨e2, by rw [BoardOf.ent_set_ne _ _ _ _ (hregOld kp hmem)]; exact he2,
              heid2⟩
        · intro kp hkp
          rcases mem_emInsert.mp hkp with hEq | ⟨hmem, _⟩
          · subst hEq
            exact hbound
          · exact hc.keyBound kp hmem
        · intro q e1 hq i' hi'
          by_cases hqp : q = p
          · rw [hqp, BoardOf.ent_set_self] at hq
            cases hq
            rw [hid] at hi'
            cases hi'
            exact hbound
          · rw [BoardOf.ent_set_ne _ _ _ _ hqp] at hq
            exact hc.boardBound q e1 hq i' hi'
      | none =>
        rw [add_entity_fresh s p e h htr hid]
        refine ⟨?_, ?_, keyNodup_emInsert _ p hc.keyNodup, ?_⟩
        · intro kp hkp
          rcases mem_emInsert.mp hkp with hEq | ⟨hmem, _⟩
          · subst hEq
            exact ⟨e.register { id := s.em.current_largest_entity_id + 1 },
              BoardOf.ent_set_self _ _ _, Entity.get_id_register htr _⟩
          · obtain ⟨e2, he2, heid2⟩ := hc.reg kp hmem
            exact ⟨e2, by rw [BoardOf.ent_set_ne _ _ _ _ (hregOld kp hmem)]; exact he2,
              heid2⟩
        · intro kp hkp
          rcases mem_emInsert.mp hkp with hEq | ⟨hmem, _⟩
          · subst hEq
            exact Nat.le_refl _
          · exact Nat.le_succ_of_le (hc.keyBound kp hmem)
        · intro q e1 hq i' hi'
          by_cases hqp : q = p
          · rw [hqp, BoardOf.ent_set_self] at hq
            cases hq
            rw [Entity.get_id_register htr] at hi'
            cases hi'
            exact Nat.le_refl _
          · rw [BoardOf.ent_set_ne _ _ _ _ hqp] at hq
            exact Nat.le_succ_of_le (hc.boardBound q e1 hq i' hi')

theorem Consistent.move (s : SimState) (hc : Consistent s) (pos new_pos : Pos) :
    Consistent (s.handle_move pos new_pos) := by
  unfold SimState.handle_move
  cases hval : s.board.is_valid_pos new_pos with
  | false => simpa [hval] using hc
  | true =>
    cases hocc : s.board.is_occupied new_pos with
    | true => simpa [hval, hocc] using hc
    | false =>
      simp only [hval, hocc, Bool.not_true, Bool.false_eq_true, if_false]
      cases h : s.board.ent pos with
      | none =>
        rw [remove_entity_empty s pos h]
        exact hc
      | some ent =>
        have hrem := Consistent.remove s hc pos
        cases hid : ent.get_id with
        | some i =>
          rw [remove_entity_some_id s pos ent i h hid] at hrem ⊢
          refine Consistent.add _ hrem new_pos ent ?_
          intro i' hi'
          rw [hid] at hi'
          cases hi'
          exact ⟨emLookup_emErase_self _ i, hc.boardBound pos ent h i hid⟩
        | none =>
          rw [remove_entity_some_noid s pos ent h hid] at hrem ⊢
          exact Consistent.add _ hrem new_pos ent
            (fun i hi => by rw [hid] at hi; cases hi)

theorem Consistent.step {s s' : SimState} (hc : Consistent s)
    (hstep : SandboxStep s s') : Consistent s' := by
  cases hstep with
  | move pos new_pos => exact Consistent.move s hc pos new_pos
  | detach p => exact Consistent.remove s hc p
  | attach p e hfresh => exact Consistent.add s hc p e hfresh
  | mutate p e e1 hocc hid =>
    refine ⟨?_, hc.keyBound, hc.keyNodup, ?_⟩
    · intro kp hkp
      obtain ⟨e2, he2, heid2⟩ := hc.reg kp hkp
      by_cases hqp : kp.2 = p
      · rw [hqp, hocc] at he2
        cases he2
        refine ⟨e1, ?_, by rw [hid]; exact heid2⟩
        rw [hqp]
        exact BoardOf.ent_set_self _ _ _
      · exact ⟨e2, by rw [BoardOf.ent_set_ne _ _ _ _ hqp]; exact he2, heid2⟩
    · intro q e2 hq i' hi'
      by_cases hqp : q = p
      · rw [hqp, BoardOf.ent_set_self] at hq
        cases hq
        rw [hid] at hi'
        exact hc.boardBound p e hocc i' hi'
      · rw [BoardOf.ent_set_ne _ _ _ _ hqp] at hq
        exact hc.boardBound q e2 hq i' hi'

/-- Claim C1 (confirmed): registry consistency is an invariant of the tick
pipeline.  Starting from any consistent state, after any sequence of the
sandbox's board/registry mutations (guarded moves, tile detachments, tile
insertions obeying the pipeline's ID discipline, and in-place entity
mutations that preserve the stored ID — the operations that make up the
four phases), every `(id, pos)` entry of the active registry points at a
tile occupied by an entity whose stored ID equals `id`, and no two
distinct IDs map to the same position. -/
theorem C1_registry_consistency (s s' : SimState) (hc : Consistent s)
    (hsteps : Relation.ReflTransGen SandboxStep s s') :
    (∀ kp ∈ s'.em.active_entities,
      ∃ e, s'.board.ent kp.2 = some e ∧ e.get_id = some kp.1) ∧
    (∀ kp1 ∈ s'.em.active_entities, ∀ kp2 ∈ s'.em.active_entities,
      kp1.2 = kp2.2 → kp1.1 = kp2.1) := by
  have hc' : Consistent s' := by
    induction hsteps with
    | refl => exact hc
    | tail _ hstep ih => exact Consistent.step ih hstep
  refine ⟨hc'.reg, ?_⟩
  intro kp1 h1 kp2 h2 hpos
  obtain ⟨e1, he1, hid1⟩ := hc'.reg kp1 h1
  obtain ⟨e2, he2, hid2⟩ := hc'.reg kp2 h2
  rw [hpos, he2] at he1
  cases he1
  rw [hid1] at hid2
  exact Option.some.inj hid2

theorem consistent_emptySimState : Consistent emptySimState := by
  refine ⟨?_, ?_, ?_, ?_⟩
  · intro kp hkp
    simp [emptySimState, EntityManager.new] at hkp
  · intro kp hkp
    simp [emptySimState, EntityManager.new] at hkp
  · simp [emptySimState, EntityManager.new]
  · intro p e hq i hi
    simp [emptySimState] at hq

/-- Witness for C1 at a concrete input: from the empty 1×1 state, one
registered insertion of a kelp at `(0, 0)` (an `attach` step whose ID
discipline holds vacuously) reaches a state satisfying both conclusions. -/
theorem C1_registry_consistency_witness :
    (∀ kp ∈ (emptySimState.add_entity { x := 0, y := 0 }
        (.Living (.Plants kelpDefault))).2.em.active_entities,
      ∃ e, (emptySimState.add_entity { x := 0, y := 0 }
        (.Living (.Plants kelpDefault))).2.board.ent kp.2 = some e ∧
          e.get_id = some kp.1) ∧
    (∀ kp1 ∈ (emptySimState.add_entity { x := 0, y := 0 }
        (.Living (.Plants kelpDefault))).2.em.active_entities,
      ∀ kp2 ∈ (emptySimState.add_entity { x := 0, y := 0 }
        (.Living (.Plants kelpDefault))).2.em.active_entities,
      kp1.2 = kp2.2 → kp1.1 = kp2.1) :=
  C1_registry_consistency emptySimState _
    consistent_emptySimState
    (Relation.ReflTransGen.single
      (SandboxStep.attach emptySimState { x := 0, y := 0 }
        (.Living (.Plants kelpDefault)) (fun i hi => by cases hi)))

end DeepSea
